import Mathlib

/-!
Verification development for the tickertock data-access layer
(`src/lib/config.ts` and `src/lib/finnhub.ts`).

Modelling conventions:
* Timestamps are UTC milliseconds since the epoch, as `Int`, mirroring
  `Date.now()`.  JS `Date` field arithmetic (`setDate`, `setMonth`,
  `setFullYear`, `setHours`) is modelled over the proleptic Gregorian
  calendar in UTC.
* Prices and other JS numbers carrying data are `ℚ`; `parseFloat(x.toFixed(2))`
  is modelled as rounding to two decimals.
* `Math.random()` draws are an oracle stream `Nat → ℚ` in the environment.
* `fetch` is an oracle per endpoint: it either throws (transport failure or a
  JSON parse failure) or replies with a status and an optional body, `none`
  standing for a falsy (`null`) payload.
* The module-level mutable state of the two files (the three caches, the
  request counters, the active API key and the durable-storage slot) is an
  explicit `AppState` threaded through the operations.
-/

namespace Tickertock

/-! ## Calendar model for JS `Date` (UTC) -/

def dayMs : Int := 86400000
def hourMs : Int := 3600000

/-- `d.setDate(d.getDate() + k)`: shifting a timestamp by whole days.  In UTC
this is exactly a shift by `k * 86400000` ms (the day field may overflow or
underflow; JS normalizes, which is the same arithmetic). -/
def addDays (ts k : Int) : Int := ts + k * dayMs

/-- `d.setHours(h)`: replace the hour of the day, keeping minutes, seconds and
milliseconds (UTC). -/
def setHoursTo (ts h : Int) : Int :=
  ts - ts % dayMs + h * hourMs + ts % dayMs % hourMs

/-- Day count since 1970-01-01 of a civil date (proleptic Gregorian).  The day
argument may lie outside `1..28/31`; it acts as an offset from the first of the
month, exactly like JS `Date` field overflow. -/
def daysFromCivil (y m d : Int) : Int :=
  let yy := if m ≤ 2 then y - 1 else y
  let era := yy / 400
  let yoe := yy - era * 400
  let mp := (m + 9) % 12
  let doy := (153 * mp + 2) / 5 + d - 1
  let doe := yoe * 365 + yoe / 4 - yoe / 100 + doy
  era * 146097 + doe - 719468

/-- Civil date `(year, month, day)` (month `1..12`) of a day count since
1970-01-01. -/
def civilFromDays (z : Int) : Int × Int × Int :=
  let z2 := z + 719468
  let era := z2 / 146097
  let doe := z2 - era * 146097
  let yoe := (doe - doe / 1460 + doe / 36524 - doe / 146096) / 365
  let y := yoe + era * 400
  let doy := doe - (365 * yoe + yoe / 4 - yoe / 100)
  let mp := (5 * doy + 2) / 153
  let d := doy - (153 * mp + 2) / 5 + 1
  let m := mp + (if mp < 10 then 3 else -9)
  (y + (if m ≤ 2 then 1 else 0), m, d)

/-- Civil date of a timestamp. -/
def dateParts (ts : Int) : Int × Int × Int := civilFromDays (ts / dayMs)

/-- `d.getMonth()`: JS months are 0-based. -/
def getMonth0 (ts : Int) : Int := (dateParts ts).2.1 - 1

/-- `d.getFullYear()`. -/
def getFullYear (ts : Int) : Int := (dateParts ts).1

/-- `d.setMonth(m)` with `m` 0-based and possibly out of range: JS normalizes
the month into the year and keeps the day-of-month (overflowing into the next
month when too large) and the time of day. -/
def setMonth0 (ts m : Int) : Int :=
  let p := dateParts ts
  daysFromCivil (p.1 + m / 12) (m % 12 + 1) p.2.2 * dayMs + ts % dayMs

/-- `d.setFullYear(y)`: replace the year, keeping month, day-of-month and time
of day. -/
def setFullYearTo (ts y : Int) : Int :=
  let p := dateParts ts
  daysFromCivil y p.2.1 p.2.2 * dayMs + ts % dayMs

/-- `parseFloat(x.toFixed(2))`: rounding to two decimal places. -/
def round2 (q : ℚ) : ℚ := (⌊q * 100 + 1 / 2⌋ : ℚ) / 100

/-! ## `src/lib/config.ts` -/

def DEFAULT_API_KEY : String := "d0hvls1r01qji78qqe90d0hvls1r01qji78qqe9g"

/-- The module-level `requestCount` object. -/
structure RequestCount where
  total : Int
  minute : Int
  lastReset : Int
deriving DecidableEq

/-- `trackRequest()`: `total += 1; minute += 1;` then, when more than
`60 * 1000` ms have passed since `lastReset`, `minute = 1; lastReset = now`
(the current request is counted).  The mutation sequence is rendered as one
conditional expression: the preceding `minute += 1` is dead in the reset
branch. -/
def trackRequest (rc : RequestCount) (now : Int) : RequestCount :=
  if now - rc.lastReset > 60 * 1000 then
    { total := rc.total + 1, minute := 1, lastReset := now }
  else
    { total := rc.total + 1, minute := rc.minute + 1,
      lastReset := rc.lastReset }

/-- `getRemainingRequests()`. -/
def getRemainingRequests (rc : RequestCount) : Int :=
  max 0 (60 - rc.minute)

/-! ## Data model of `src/lib/finnhub.ts` -/

structure StockData where
  symbol : String
  price : ℚ
  change : ℚ
  changePercent : ℚ
  dayOpen : ℚ
  dayHigh : ℚ
  dayLow : ℚ
  prevClose : ℚ
  volume : Option ℚ
  /-- `new Date().toISOString().split('T')[0]`, modelled as the civil day
  number of the instant. -/
  latestTradingDay : Option Int
  /-- The four change fields are only ever set by `calculatePriceChanges`. -/
  weekChange : Option ℚ := none
  weekChangePercent : Option ℚ := none
  monthChange : Option ℚ := none
  monthChangePercent : Option ℚ := none
deriving DecidableEq

structure HistoricalDataPoint where
  /-- `date` is stored by the source as `toISOString()` of an instant; for
  instants in the years 1000–9999 those strings compare exactly like the
  underlying millisecond timestamps, which is what we keep. -/
  date : Int
  close : ℚ
deriving DecidableEq

structure SearchResult where
  symbol : String
  description : String
  type : String
  currency : Option String := none
deriving DecidableEq

structure CacheEntry (α : Type) where
  data : α
  timestamp : Int

/-- One of the three module-level cache objects (`Record<string, …>`). -/
def CacheMap (α : Type) := String → Option (CacheEntry α)

def CacheMap.empty : CacheMap α := fun _ => none

/-- `cache[key] = entry`. -/
def CacheMap.insert (c : CacheMap α) (key : String) (e : CacheEntry α) :
    CacheMap α :=
  fun k => if k = key then some e else c k

def CACHE_EXPIRY_QUOTE : Int := 60 * 1000
def CACHE_EXPIRY_SEARCH : Int := 5 * 60 * 1000
def CACHE_EXPIRY_HISTORICAL : Int := 60 * 60 * 1000

/-- `cache[key] && now - cache[key].timestamp < expiry`. -/
def cacheFresh (c : CacheMap α) (key : String) (now expiry : Int) : Bool :=
  match c key with
  | none => false
  | some e => decide (now - e.timestamp < expiry)

/-- Wire shape of the quote endpoint's JSON body. -/
structure QuoteBody where
  /-- truthiness of `data.error` -/
  error : Bool
  c : ℚ
  d : ℚ
  dp : ℚ
  o : ℚ
  h : ℚ
  l : ℚ
  pc : ℚ
  v : Option ℚ
deriving DecidableEq

structure SearchItem where
  symbol : String
  /-- `""` models a missing/falsy `description`. -/
  description : String
  displaySymbol : String
  type : String
deriving DecidableEq

/-- Wire shape of the search endpoint's JSON body; `result = none` models a
missing or falsy `result` field. -/
structure SearchBody where
  error : Bool
  result : Option (List SearchItem)
deriving DecidableEq

/-- Outcome of one `fetch` + `response.json()`: either a raised exception
(transport failure or JSON parse failure) or a status with an optional
(`none` = falsy) body. -/
inductive FetchOutcome (β : Type) where
  | throw : FetchOutcome β
  | reply (status : Int) (body : Option β) : FetchOutcome β

/-- The ambient world: the upstream HTTP API per endpoint and the
`Math.random()` stream. -/
structure Env where
  quoteFetch : String → FetchOutcome QuoteBody
  searchFetch : String → FetchOutcome SearchBody
  rand : Nat → ℚ

/-- All module-level mutable state of `config.ts` and `finnhub.ts`:
the three caches, the request counters, the active key (`FINNHUB_API_KEY`)
and the durable-storage slot (`localStorage` under
`tickertock_finnhub_api_key`). -/
structure AppState where
  quoteCache : CacheMap StockData
  searchCache : CacheMap (List SearchResult)
  historicalCache : CacheMap (List HistoricalDataPoint)
  requestCount : RequestCount
  apiKey : String
  storedKey : Option String

/-- `updateApiKey(newKey)`: `FINNHUB_API_KEY = newKey || DEFAULT_API_KEY`,
persist or remove the stored key, and reset the minute counter and
`lastReset`. -/
def updateApiKey (newKey : String) (now : Int) (st : AppState) : AppState :=
  { st with
    apiKey := if newKey = "" then DEFAULT_API_KEY else newKey,
    storedKey := if newKey = "" then none else some newKey,
    requestCount :=
      { st.requestCount with minute := 0, lastReset := now } }

/-- `clearCaches()`: deletes every key of each of the three caches. -/
def clearCaches (st : AppState) : AppState :=
  { st with
    quoteCache := CacheMap.empty,
    searchCache := CacheMap.empty,
    historicalCache := CacheMap.empty }

/-! ## `getQuote` -/

/-- `getQuote(symbol)`.  The returned pair is (result, state after the call).
All error paths return `none` (the function catches its own exceptions and
never throws). -/
def getQuote (env : Env) (st : AppState) (symbol : String) (now : Int) :
    Option StockData × AppState :=
  if cacheFresh st.quoteCache symbol now CACHE_EXPIRY_QUOTE then
    ((st.quoteCache symbol).map (fun e => e.data), st)
  else
    let st1 := { st with requestCount := trackRequest st.requestCount now }
    match env.quoteFetch symbol with
    | .throw => (none, st1)
    | .reply status body =>
      -- `response.status !== 200 || !data || data.error`
      if status ≠ 200 ∨ body.isNone = true ∨ body.any (fun w => w.error) = true
      then (none, st1)
      else
        match body with
        | none => (none, st1)
        | some w =>
          let stockData : StockData :=
            { symbol := symbol, price := w.c, change := w.d,
              changePercent := w.dp, dayOpen := w.o, dayHigh := w.h,
              dayLow := w.l, prevClose := w.pc,
              volume := some (w.v.getD 0),
              latestTradingDay := some (now / dayMs) }
          let st2 := { st1 with
            quoteCache := st1.quoteCache.insert symbol ⟨stockData, now⟩ }
          (some stockData, st2)

/-! ## `searchTickers` -/

/-- `searchTickers(query)`.  A `null` JSON payload makes `data.result` throw,
which the surrounding `catch` turns into `[]`, the same failure value as the
explicit error check, so both are the `([], st1)` branches below. -/
def searchTickers (env : Env) (st : AppState) (query : String) (now : Int) :
    List SearchResult × AppState :=
  if cacheFresh st.searchCache query now CACHE_EXPIRY_SEARCH then
    (((st.searchCache query).map (fun e => e.data)).getD [], st)
  else
    let st1 := { st with requestCount := trackRequest st.requestCount now }
    match env.searchFetch query with
    | .throw => ([], st1)
    | .reply status body =>
      match body with
      | none => ([], st1)
      | some w =>
        -- `response.status !== 200 || !data.result || data.error`
        if status ≠ 200 ∨ w.result.isNone = true ∨ w.error = true then
          ([], st1)
        else
          let items := w.result.getD []
          let results :=
            (items.filter (fun item =>
                item.type != "crypto" || item.symbol.contains '/')).map
              (fun item =>
                { symbol := item.symbol,
                  description :=
                    if item.description = "" then item.displaySymbol
                    else item.description,
                  type := item.type, currency := none })
          let st2 := { st1 with
            searchCache := st1.searchCache.insert query ⟨results, now⟩ }
          (results, st2)

/-! ## `getHistoricalData` -/

/-- The `switch (timeRange)` resolving the lookback start (`fromDate`);
`toDate` is `now`. -/
def historyFromDate (timeRange : String) (now : Int) : Int :=
  if timeRange = "1D" then addDays now (-1)
  else if timeRange = "1W" then addDays now (-7)
  else if timeRange = "1M" then setMonth0 now (getMonth0 now - 1)
  else if timeRange = "3M" then setMonth0 now (getMonth0 now - 3)
  else if timeRange = "1Y" then setFullYearTo now (getFullYear now - 1)
  else if timeRange = "All Time" then setFullYearTo now (getFullYear now - 5)
  else setMonth0 now (getMonth0 now - 1)

/-- The `for (let hour = 0; hour < 24; hour += 2)` loop of the `'1D'` branch:
twelve points at the even hours of `fromDate`, each at
`basePrice + (Math.random() - 0.5) * priceVolatility` rounded to cents. -/
def gen1D (fromDate : Int) (rand : Nat → ℚ) (basePrice priceVolatility : ℚ) :
    List HistoricalDataPoint :=
  (List.range 12).map fun i =>
    { date := setHoursTo fromDate ((2 * i : Nat) : Int),
      close := round2 (basePrice + (rand i - 1 / 2) * priceVolatility) }

/-- The `while (currentDate <= endDate)` loop of the non-`'1D'` branches.
`prevPrice` carries `dataPoints[dataPoints.length - 1].close` (and is
`basePrice * 0.95` before the first push); `idx` indexes the `Math.random()`
stream.  For `'All Time'` the source advances `currentDate` by one month
*before* pushing and then skips the post-push advance; every other range
pushes at `currentDate` and then advances by `interval` days (7 for `'1Y'`,
3 for `'3M'`, 1 otherwise).  `fuel` only bounds the recursion; the caller
passes the day span of the window plus 2, which exceeds the iteration count
(every iteration advances `currentDate` by at least one day). -/
def genLoop (timeRange : String) (endDate : Int) (rand : Nat → ℚ)
    (priceVolatility : ℚ) :
    Nat → Int → Nat → ℚ → List HistoricalDataPoint
  | 0, _, _, _ => []
  | fuel + 1, currentDate, idx, prevPrice =>
    if currentDate ≤ endDate then
      let stepped :=
        if timeRange = "1Y" then (currentDate, (7 : Int))
        else if timeRange = "3M" then (currentDate, (3 : Int))
        else if timeRange = "All Time" then
          (setMonth0 currentDate (getMonth0 currentDate + 1), (0 : Int))
        else (currentDate, (1 : Int))
      let point : HistoricalDataPoint :=
        { date := stepped.1,
          close := round2 (prevPrice + (rand idx - 45 / 100) * priceVolatility) }
      let nextDate :=
        if timeRange ≠ "All Time" then addDays stepped.1 stepped.2
        else stepped.1
      point :: genLoop timeRange endDate rand priceVolatility fuel nextDate
        (idx + 1) point.close
    else []

/-- `if (dataPoints.length > 0) dataPoints[dataPoints.length - 1].close =
basePrice`. -/
def setLastClose : List HistoricalDataPoint → ℚ → List HistoricalDataPoint
  | [], _ => []
  | [p], c => [{ p with close := c }]
  | p :: q :: rest, c => p :: setLastClose (q :: rest) c

/-- `getHistoricalData(symbol, timeRange)`.  (The source also formats
`fromDate`/`toDate` as `YYYY-MM-DD` strings for a commented-out news fallback;
those strings are never used and are not modelled.) -/
def getHistoricalData (env : Env) (st : AppState)
    (symbol timeRange : String) (now : Int) :
    List HistoricalDataPoint × AppState :=
  let cacheKey := symbol ++ "-" ++ timeRange
  if cacheFresh st.historicalCache cacheKey now CACHE_EXPIRY_HISTORICAL then
    (((st.historicalCache cacheKey).map (fun e => e.data)).getD [], st)
  else
    let st1 := { st with requestCount := trackRequest st.requestCount now }
    let toDate := now
    let fromDate := historyFromDate timeRange now
    let fetched := getQuote env st1 symbol now
    match fetched.1 with
    | none => ([], fetched.2)
    | some quote =>
      let basePrice := quote.price
      let priceVolatility := basePrice * (2 / 100)
      let dataPoints :=
        if timeRange = "1D" then
          gen1D fromDate env.rand basePrice priceVolatility
        else
          genLoop timeRange toDate env.rand priceVolatility
            (((toDate - fromDate).toNat / 86400000) + 2) fromDate 0
            (basePrice * (95 / 100))
      let dataPoints2 := setLastClose dataPoints basePrice
      let dataPoints3 := dataPoints2 ++ [{ date := now, close := basePrice }]
      let st3 := { fetched.2 with
        historicalCache :=
          (fetched.2).historicalCache.insert cacheKey ⟨dataPoints3, now⟩ }
      (dataPoints3, st3)

/-! ## Operation sequences over the counter state (for the invariant claim) -/

/-- The two operations that mutate the request counters: an upstream call
being recorded, and a credential change. -/
inductive CounterOp where
  | record (now : Int)
  | setKey (key : String) (now : Int)

def applyOp (st : AppState) : CounterOp → AppState
  | .record now =>
    { st with requestCount := trackRequest st.requestCount now }
  | .setKey key now => updateApiKey key now st

/-- The state at module load: empty caches, zero counters with
`lastReset = Date.now()`, and `FINNHUB_API_KEY = getApiKey()` (the stored key
if present, else the default). -/
def initialState (t0 : Int) (stored : Option String) : AppState :=
  { quoteCache := CacheMap.empty,
    searchCache := CacheMap.empty,
    historicalCache := CacheMap.empty,
    requestCount := { total := 0, minute := 0, lastReset := t0 },
    apiKey := stored.getD DEFAULT_API_KEY,
    storedKey := stored }

/-! ## The failure taxonomy of the error-handling claims -/

/-- A quote request that fails in one of the claimed ways: transport/network
failure (or a JSON parse failure), a non-success status, a malformed (falsy)
body, or an explicit error field in the payload. -/
def fetchFails : FetchOutcome QuoteBody → Bool
  | .throw => true
  | .reply status body =>
    decide (status ≠ 200) || body.isNone || body.any (fun w => w.error)

/-- A search request that fails in one of the claimed ways. -/
def searchFails : FetchOutcome SearchBody → Bool
  | .throw => true
  | .reply status body =>
    match body with
    | none => true
    | some w => decide (status ≠ 200) || w.result.isNone || w.error

/-! ## Concrete instances used by witnesses and counterexamples -/

/-- A world whose quote endpoint always succeeds with price 100 and whose
random stream is constantly 1/2. -/
def okEnv : Env :=
  { quoteFetch := fun _ =>
      .reply 200 (some { error := false, c := 100, d := 1, dp := 1, o := 99,
                         h := 101, l := 98, pc := 99, v := none }),
    searchFetch := fun _ => .throw,
    rand := fun _ => 1 / 2 }

/-- A world where every upstream call fails at the transport level. -/
def downEnv : Env :=
  { quoteFetch := fun _ => .throw,
    searchFetch := fun _ => .throw,
    rand := fun _ => 0 }

/-- A world whose search endpoint succeeds with an empty result list. -/
def emptySearchEnv : Env :=
  { quoteFetch := fun _ => .throw,
    searchFetch := fun _ => .reply 200 (some { error := false, result := some [] }),
    rand := fun _ => 0 }

/-- Fresh module state (empty caches, zero counters). -/
def st0 : AppState := initialState 0 none

/-- A sample instant: 2023-11-14T22:13:20Z. -/
def T0 : Int := 1700000000000

/-- The quote `okEnv` yields at time `T0`. -/
def qT0 : StockData :=
  { symbol := "AAPL", price := 100, change := 1, changePercent := 1,
    dayOpen := 99, dayHigh := 101, dayLow := 98, prevClose := 99,
    volume := some 0, latestTradingDay := some 19675 }

/-- The per-iteration advance, in days, of the generation loop for the ranges
that advance day-wise. -/
def loopStep (timeRange : String) : Int :=
  if timeRange = "1Y" then 7 else if timeRange = "3M" then 3 else 1

/-! ## Helper lemmas about the request counters -/

theorem trackRequest_no_reset (rc : RequestCount) (now : Int)
    (h : now - rc.lastReset ≤ 60000) :
    trackRequest rc now =
      { total := rc.total + 1, minute := rc.minute + 1,
        lastReset := rc.lastReset } := by
  unfold trackRequest
  rw [if_neg (by omega)]

theorem trackRequest_reset (rc : RequestCount) (now : Int)
    (h : now - rc.lastReset > 60000) :
    trackRequest rc now =
      { total := rc.total + 1, minute := 1, lastReset := now } := by
  unfold trackRequest
  rw [if_pos (by omega)]

/-- A burst of calls all within the rolling window just accumulates both
counters and leaves `lastReset` alone. -/
theorem foldl_trackRequest_within (ts : List Int) :
    ∀ rc : RequestCount, (∀ t ∈ ts, t - rc.lastReset ≤ 60000) →
      ts.foldl (fun s t => trackRequest s t) rc =
        { rc with total := rc.total + ts.length,
                  minute := rc.minute + ts.length } := by
  induction ts with
  | nil => intro rc _; simp
  | cons t ts ih =>
    intro rc h
    have ht : t - rc.lastReset ≤ 60000 := h t (by simp)
    simp only [List.foldl_cons]
    rw [trackRequest_no_reset rc t ht, ih]
    · simp only [List.length_cons, RequestCount.mk.injEq]
      refine ⟨by push_cast; ring, by push_cast; ring, trivial⟩
    · intro u hu
      have := h u (by simp [hu])
      simpa using this

/-! ## C3 -/

/-- C3: `trackRequest` increments `total` by exactly 1; it increments `minute`
by 1 unless more than 60000 ms have elapsed since `lastReset`, in which case
it sets `minute` to 1 and `lastReset` to the current time; 61 calls within one
rolling minute leave `getRemainingRequests` at 0, and one call after the
minute boundary leaves `minute` at 1. -/
theorem c3_trackRequest_spec (rc : RequestCount) (now : Int) (ts : List Int)
    (hlen : ts.length = 61) (hin : ∀ t ∈ ts, t - rc.lastReset ≤ 60000)
    (hmin : 0 ≤ rc.minute) :
    (trackRequest rc now).total = rc.total + 1 ∧
    (now - rc.lastReset ≤ 60000 →
      (trackRequest rc now).minute = rc.minute + 1) ∧
    (now - rc.lastReset > 60000 →
      (trackRequest rc now).minute = 1 ∧
      (trackRequest rc now).lastReset = now) ∧
    getRemainingRequests (ts.foldl (fun s t => trackRequest s t) rc) = 0 := by
  refine ⟨?_, ?_, ?_, ?_⟩
  · by_cases h : now - rc.lastReset > 60000
    · rw [trackRequest_reset rc now h]
    · rw [trackRequest_no_reset rc now (by omega)]
  · intro h; rw [trackRequest_no_reset rc now h]
  · intro h; rw [trackRequest_reset rc now h]; exact ⟨rfl, rfl⟩
  · rw [foldl_trackRequest_within ts rc hin]
    simp only [getRemainingRequests, hlen]
    apply max_eq_left
    omega

/-- Witness for C3 at a concrete state and a burst of 61 calls at time 0. -/
theorem c3_trackRequest_spec_witness :
    (trackRequest ⟨5, 2, 0⟩ 30).total = 5 + 1 ∧
    ((30 : Int) - 0 ≤ 60000 → (trackRequest ⟨5, 2, 0⟩ 30).minute = 2 + 1) ∧
    ((30 : Int) - 0 > 60000 → (trackRequest ⟨5, 2, 0⟩ 30).minute = 1 ∧
      (trackRequest ⟨5, 2, 0⟩ 30).lastReset = 30) ∧
    getRemainingRequests
      ((List.replicate 61 (0 : Int)).foldl (fun s t => trackRequest s t)
        ⟨5, 2, 0⟩) = 0 :=
  c3_trackRequest_spec ⟨5, 2, 0⟩ 30 (List.replicate 61 0) (by decide)
    (by decide) (by decide)

/-! ## C6 -/

theorem applyOp_counterInv (st : AppState) (op : CounterOp)
    (h : 0 ≤ st.requestCount.minute ∧
         st.requestCount.minute ≤ st.requestCount.total) :
    0 ≤ (applyOp st op).requestCount.minute ∧
    (applyOp st op).requestCount.minute ≤ (applyOp st op).requestCount.total := by
  cases op with
  | record now =>
    by_cases hr : now - st.requestCount.lastReset > 60000
    · simp only [applyOp, trackRequest_reset st.requestCount now hr]
      omega
    · have hn : now - st.requestCount.lastReset ≤ 60000 := by omega
      simp only [applyOp, trackRequest_no_reset st.requestCount now hn]
      omega
  | setKey key now =>
    simp only [applyOp, updateApiKey]
    omega

/-- C6: from the initial counter state, every sequence of `trackRequest` and
`updateApiKey` operations preserves `minute ≤ total`. -/
theorem c6_minute_le_total (t0 : Int) (stored : Option String)
    (ops : List CounterOp) :
    (ops.foldl applyOp (initialState t0 stored)).requestCount.minute ≤
    (ops.foldl applyOp (initialState t0 stored)).requestCount.total := by
  have main : ∀ (l : List CounterOp) (st : AppState),
      0 ≤ st.requestCount.minute ∧
        st.requestCount.minute ≤ st.requestCount.total →
      0 ≤ (l.foldl applyOp st).requestCount.minute ∧
        (l.foldl applyOp st).requestCount.minute ≤
          (l.foldl applyOp st).requestCount.total := by
    intro l
    induction l with
    | nil => intro st h; simpa using h
    | cons op l ih =>
      intro st h
      simpa using ih (applyOp st op) (applyOp_counterInv st op h)
  exact (main ops (initialState t0 stored) (by simp [initialState])).2

/-! ## C7 -/

/-- C7: changing the credential (with any value) zeroes the minute counter,
stamps `lastReset` with the current time, leaves `total` unchanged, and an
immediately following `getRemainingRequests` returns 60. -/
theorem c7_updateApiKey_fresh_window (st : AppState) (newKey : String)
    (now : Int) :
    (updateApiKey newKey now st).requestCount.minute = 0 ∧
    (updateApiKey newKey now st).requestCount.lastReset = now ∧
    (updateApiKey newKey now st).requestCount.total = st.requestCount.total ∧
    getRemainingRequests (updateApiKey newKey now st).requestCount = 60 := by
  refine ⟨rfl, rfl, rfl, ?_⟩
  simp [updateApiKey, getRemainingRequests]

/-! ## C9 -/

/-- C9: `clearCaches` removes every entry of all three caches and leaves the
request counters, the active key and the stored credential unchanged. -/
theorem c9_clearCaches_frame (st : AppState) (k : String) :
    (clearCaches st).quoteCache k = none ∧
    (clearCaches st).searchCache k = none ∧
    (clearCaches st).historicalCache k = none ∧
    (clearCaches st).requestCount = st.requestCount ∧
    (clearCaches st).apiKey = st.apiKey ∧
    (clearCaches st).storedKey = st.storedKey :=
  ⟨rfl, rfl, rfl, rfl, rfl, rfl⟩

/-! ## Helper lemmas about `getQuote` -/

theorem trackRequest_total (rc : RequestCount) (now : Int) :
    (trackRequest rc now).total = rc.total + 1 := by
  unfold trackRequest; split <;> rfl

/-- A failed `getQuote` call leaves all three caches untouched. -/
theorem getQuote_none_frame (env : Env) (st : AppState) (symbol : String)
    (now : Int) (h : (getQuote env st symbol now).1 = none) :
    (getQuote env st symbol now).2.quoteCache = st.quoteCache ∧
    (getQuote env st symbol now).2.searchCache = st.searchCache ∧
    (getQuote env st symbol now).2.historicalCache = st.historicalCache := by
  unfold getQuote at h ⊢
  by_cases hf : cacheFresh st.quoteCache symbol now CACHE_EXPIRY_QUOTE = true
  · rw [if_pos hf]
    exact ⟨rfl, rfl, rfl⟩
  · rw [if_neg hf] at h ⊢
    cases henv : env.quoteFetch symbol with
    | throw => exact ⟨rfl, rfl, rfl⟩
    | reply status body =>
      rw [henv] at h
      dsimp only at h ⊢
      by_cases hc : status ≠ 200 ∨ body.isNone = true ∨
          body.any (fun w => w.error) = true
      · rw [if_pos hc]; exact ⟨rfl, rfl, rfl⟩
      · rw [if_neg hc] at h ⊢
        cases body with
        | none => exact ⟨rfl, rfl, rfl⟩
        | some w => simp at h

/-- A cache-missing `getQuote` call that returns a quote stored exactly that
quote, stamped with the call time, and recorded one request. -/
theorem getQuote_miss_success (env : Env) (st : AppState) (symbol : String)
    (now : Int) (q : StockData)
    (hmiss : cacheFresh st.quoteCache symbol now CACHE_EXPIRY_QUOTE = false)
    (hq : (getQuote env st symbol now).1 = some q) :
    getQuote env st symbol now =
      (some q,
        { st with
          requestCount := trackRequest st.requestCount now,
          quoteCache := st.quoteCache.insert symbol ⟨q, now⟩ }) := by
  unfold getQuote at hq ⊢
  rw [if_neg (by simp [hmiss])] at hq ⊢
  cases henv : env.quoteFetch symbol with
  | throw => rw [henv] at hq; exact absurd hq (by simp)
  | reply status body =>
    rw [henv] at hq
    dsimp only at hq ⊢
    by_cases hc : status ≠ 200 ∨ body.isNone = true ∨
        body.any (fun w => w.error) = true
    · rw [if_pos hc] at hq; exact absurd hq (by simp)
    · rw [if_neg hc] at hq ⊢
      cases body with
      | none => exact absurd hq (by simp)
      | some w =>
        dsimp only at hq ⊢
        rw [← Option.some.inj hq]

/-! ## C4 -/

/-- C4: after a cache-missing `getQuote` call that succeeds, a second call for
the same symbol within the 60-second TTL is a pure cache hit: it returns the
identical quote, changes no state (so neither records a request nor fetches),
and only the first call recorded an upstream request. -/
theorem c4_quote_second_call_cached (env : Env) (st : AppState)
    (symbol : String) (t1 t2 : Int) (q : StockData)
    (hmiss : cacheFresh st.quoteCache symbol t1 CACHE_EXPIRY_QUOTE = false)
    (hq : (getQuote env st symbol t1).1 = some q)
    (h12 : t1 ≤ t2) (httl : t2 - t1 < 60000) :
    getQuote env (getQuote env st symbol t1).2 symbol t2 =
      (some q, (getQuote env st symbol t1).2) ∧
    (getQuote env st symbol t1).2.requestCount.total =
      st.requestCount.total + 1 := by
  rw [getQuote_miss_success env st symbol t1 q hmiss hq]
  constructor
  · unfold getQuote
    rw [if_pos (by
      simp [cacheFresh, CacheMap.insert, CACHE_EXPIRY_QUOTE]
      omega)]
    simp [CacheMap.insert]
  · simp [trackRequest_total]

/-- Witness for C4: two immediate calls for `"AAPL"` in a fresh state. -/
theorem c4_quote_second_call_cached_witness :
    getQuote okEnv (getQuote okEnv st0 "AAPL" T0).2 "AAPL" (T0 + 1000) =
      (some qT0, (getQuote okEnv st0 "AAPL" T0).2) ∧
    (getQuote okEnv st0 "AAPL" T0).2.requestCount.total =
      st0.requestCount.total + 1 :=
  c4_quote_second_call_cached okEnv st0 "AAPL" T0 (T0 + 1000) qT0
    (by decide) (by decide) (by decide) (by decide)

/-! ## C8 -/

/-- C8: on a cache miss, if the upstream quote request fails in any of the
claimed ways (transport failure, non-success status, malformed body, explicit
error field), `getQuote` returns `none`.  (It cannot throw: it is a total
function into `Option StockData × AppState`.) -/
theorem c8_quote_failure_returns_none (env : Env) (st : AppState)
    (symbol : String) (now : Int)
    (hmiss : cacheFresh st.quoteCache symbol now CACHE_EXPIRY_QUOTE = false)
    (hfail : fetchFails (env.quoteFetch symbol) = true) :
    (getQuote env st symbol now).1 = none := by
  unfold getQuote
  rw [if_neg (by simp [hmiss])]
  cases henv : env.quoteFetch symbol with
  | throw => rfl
  | reply status body =>
    rw [henv] at hfail
    simp only [fetchFails, Bool.or_eq_true, decide_eq_true_eq] at hfail
    dsimp only
    rw [if_pos (by tauto)]

/-- Witness for C8 at a transport failure. -/
theorem c8_quote_failure_returns_none_witness :
    (getQuote downEnv st0 "AAPL" 0).1 = none :=
  c8_quote_failure_returns_none downEnv st0 "AAPL" 0 (by decide) (by decide)

/-! ## C10 -/

/-- C10 counterexample: a successful search whose result list is empty returns
the "failure value" `[]` and yet stores it in the search cache (an empty JS
array is truthy, so `!data.result` does not fire), contradicting "empty
results are never stored".  A subsequent call for the same query is then a
cache hit and does not refetch. -/
theorem c10_counterexample :
    (searchTickers emptySearchEnv st0 "zzz" 0).1 = [] ∧
    ((searchTickers emptySearchEnv st0 "zzz" 0).2.searchCache "zzz").isSome
      = true ∧
    cacheFresh (searchTickers emptySearchEnv st0 "zzz" 0).2.searchCache
      "zzz" 1 CACHE_EXPIRY_SEARCH = true :=
  ⟨rfl, rfl, rfl⟩

/-- C10 amended: when the failure value is returned *because of an upstream
error or a missing anchor quote*, none of the three caches is modified (so a
later call for the same key misses the cache and fetches again).  A successful
search with an empty result list is, however, cached. -/
theorem c10_error_results_not_cached (env : Env) (st : AppState)
    (symbol query tr : String) (now : Int) :
    ((getQuote env st symbol now).1 = none →
      (getQuote env st symbol now).2.quoteCache = st.quoteCache ∧
      (getQuote env st symbol now).2.searchCache = st.searchCache ∧
      (getQuote env st symbol now).2.historicalCache = st.historicalCache) ∧
    (cacheFresh st.searchCache query now CACHE_EXPIRY_SEARCH = false →
      searchFails (env.searchFetch query) = true →
      (searchTickers env st query now).1 = [] ∧
      (searchTickers env st query now).2.quoteCache = st.quoteCache ∧
      (searchTickers env st query now).2.searchCache = st.searchCache ∧
      (searchTickers env st query now).2.historicalCache =
        st.historicalCache) ∧
    ((getHistoricalData env st symbol tr now).1 = [] →
      (getHistoricalData env st symbol tr now).2.quoteCache = st.quoteCache ∧
      (getHistoricalData env st symbol tr now).2.searchCache = st.searchCache ∧
      (getHistoricalData env st symbol tr now).2.historicalCache =
        st.historicalCache) := by
  refine ⟨getQuote_none_frame env st symbol now, ?_, ?_⟩
  · intro hm hs
    unfold searchTickers
    rw [if_neg (by simp [hm])]
    cases henv : env.searchFetch query with
    | throw => exact ⟨rfl, rfl, rfl, rfl⟩
    | reply status body =>
      rw [henv] at hs
      cases body with
      | none => exact ⟨rfl, rfl, rfl, rfl⟩
      | some w =>
        simp only [searchFails, Bool.or_eq_true, decide_eq_true_eq] at hs
        dsimp only
        rw [if_pos (by tauto)]
        exact ⟨rfl, rfl, rfl, rfl⟩
  · intro h
    unfold getHistoricalData at h ⊢
    by_cases hf : cacheFresh st.historicalCache (symbol ++ "-" ++ tr) now
        CACHE_EXPIRY_HISTORICAL = true
    · rw [if_pos hf]
      exact ⟨rfl, rfl, rfl⟩
    · rw [if_neg hf] at h ⊢
      dsimp only at h ⊢
      cases hqr : (getQuote env
          { st with requestCount := trackRequest st.requestCount now }
          symbol now).1 with
      | none =>
        have hfr := getQuote_none_frame env
          { st with requestCount := trackRequest st.requestCount now }
          symbol now hqr
        exact ⟨hfr.1, hfr.2.1, hfr.2.2⟩
      | some quote =>
        rw [hqr] at h
        simp at h

/-- Witness for the amended C10 in a world whose upstream is down. -/
theorem c10_error_results_not_cached_witness :
    ((getQuote downEnv st0 "AAPL" 0).2.quoteCache = st0.quoteCache ∧
     (getQuote downEnv st0 "AAPL" 0).2.searchCache = st0.searchCache ∧
     (getQuote downEnv st0 "AAPL" 0).2.historicalCache =
       st0.historicalCache) ∧
    ((searchTickers downEnv st0 "apple" 0).1 = [] ∧
     (searchTickers downEnv st0 "apple" 0).2.quoteCache = st0.quoteCache ∧
     (searchTickers downEnv st0 "apple" 0).2.searchCache = st0.searchCache ∧
     (searchTickers downEnv st0 "apple" 0).2.historicalCache =
       st0.historicalCache) ∧
    ((getHistoricalData downEnv st0 "AAPL" "1M" 0).2.quoteCache =
       st0.quoteCache ∧
     (getHistoricalData downEnv st0 "AAPL" "1M" 0).2.searchCache =
       st0.searchCache ∧
     (getHistoricalData downEnv st0 "AAPL" "1M" 0).2.historicalCache =
       st0.historicalCache) :=
  ⟨(c10_error_results_not_cached downEnv st0 "AAPL" "apple" "1M" 0).1 rfl,
   (c10_error_results_not_cached downEnv st0 "AAPL" "apple" "1M" 0).2.1
     rfl rfl,
   (c10_error_results_not_cached downEnv st0 "AAPL" "apple" "1M" 0).2.2 rfl⟩

/-! ## Helper lemmas about the synthetic history generation -/

theorem loopStep_pos (tr : String) : 0 < loopStep tr := by
  unfold loopStep
  split
  · norm_num
  split <;> norm_num

theorem dayMs_pos : (0 : Int) < dayMs := by norm_num [dayMs]

/-- Unfolding of one non-`'All Time'` loop iteration. -/
theorem genLoop_succ_ne (tr : String) (hne : tr ≠ "All Time")
    (endDate : Int) (r : Nat → ℚ) (v : ℚ) (fuel : Nat) (cur : Int)
    (idx : Nat) (pp : ℚ) :
    genLoop tr endDate r v (fuel + 1) cur idx pp =
      if cur ≤ endDate then
        { date := cur, close := round2 (pp + (r idx - 45 / 100) * v) } ::
          genLoop tr endDate r v fuel (cur + loopStep tr * dayMs) (idx + 1)
            (round2 (pp + (r idx - 45 / 100) * v))
      else [] := by
  by_cases h1 : tr = "1Y"
  · simp [genLoop, loopStep, addDays, h1]
  · by_cases h3 : tr = "3M"
    · simp [genLoop, loopStep, addDays, h1, h3]
    · simp [genLoop, loopStep, addDays, h1, h3, hne]

/-- Unfolding of one `'All Time'` loop iteration: the month advance happens
*before* the push. -/
theorem genLoop_succ_allTime (endDate : Int) (r : Nat → ℚ) (v : ℚ)
    (fuel : Nat) (cur : Int) (idx : Nat) (pp : ℚ) :
    genLoop "All Time" endDate r v (fuel + 1) cur idx pp =
      if cur ≤ endDate then
        { date := setMonth0 cur (getMonth0 cur + 1),
          close := round2 (pp + (r idx - 45 / 100) * v) } ::
          genLoop "All Time" endDate r v fuel
            (setMonth0 cur (getMonth0 cur + 1)) (idx + 1)
            (round2 (pp + (r idx - 45 / 100) * v))
      else [] := by
  simp [genLoop]

/-- Outside `'All Time'`, every generated point lies between the loop cursor
and the window end. -/
theorem genLoop_dates_bounds (tr : String) (hne : tr ≠ "All Time")
    (endDate : Int) (r : Nat → ℚ) (v : ℚ) :
    ∀ (fuel : Nat) (cur : Int) (idx : Nat) (pp : ℚ),
      ∀ p ∈ genLoop tr endDate r v fuel cur idx pp,
        cur ≤ p.date ∧ p.date ≤ endDate := by
  intro fuel
  induction fuel with
  | zero => intro cur idx pp p hp; simp [genLoop] at hp
  | succ fuel ih =>
    intro cur idx pp p hp
    rw [genLoop_succ_ne tr hne endDate r v fuel cur idx pp] at hp
    by_cases hle : cur ≤ endDate
    · rw [if_pos hle] at hp
      rcases List.mem_cons.mp hp with h | h
      · rw [h]
        exact ⟨le_refl cur, hle⟩
      · have hb := ih (cur + loopStep tr * dayMs) (idx + 1) _ p h
        have hs : 0 < loopStep tr * dayMs :=
          mul_pos (loopStep_pos tr) dayMs_pos
        exact ⟨by linarith [hb.1], hb.2⟩
    · rw [if_neg hle] at hp
      simp at hp

/-- Outside `'All Time'`, the generated timestamps are non-decreasing. -/
theorem genLoop_dates_chain (tr : String) (hne : tr ≠ "All Time")
    (endDate : Int) (r : Nat → ℚ) (v : ℚ) :
    ∀ (fuel : Nat) (cur : Int) (idx : Nat) (pp : ℚ),
      List.Chain' (· ≤ ·)
        ((genLoop tr endDate r v fuel cur idx pp).map (fun p => p.date)) := by
  intro fuel
  induction fuel with
  | zero => intro cur idx pp; simp [genLoop]
  | succ fuel ih =>
    intro cur idx pp
    rw [genLoop_succ_ne tr hne endDate r v fuel cur idx pp]
    by_cases hle : cur ≤ endDate
    · rw [if_pos hle, List.map_cons]
      refine List.Chain'.cons' (ih _ _ _) ?_
      intro y hy
      rw [List.head?_map] at hy
      rcases Option.map_eq_some'.mp (Option.mem_def.mp hy) with ⟨p, hp, hpy⟩
      have hmem := List.mem_of_mem_head? (Option.mem_def.mpr hp)
      have hb := genLoop_dates_bounds tr hne endDate r v fuel
        (cur + loopStep tr * dayMs) (idx + 1) _ p hmem
      have hs : 0 < loopStep tr * dayMs :=
        mul_pos (loopStep_pos tr) dayMs_pos
      rw [← hpy]
      linarith [hb.1]
    · rw [if_neg hle]
      simp

/-- Outside `'All Time'`, the head of the generated list (if any) sits exactly
at the loop cursor. -/
theorem genLoop_head_date_ne (tr : String) (hne : tr ≠ "All Time")
    (endDate : Int) (r : Nat → ℚ) (v : ℚ) (fuel : Nat) (cur : Int)
    (idx : Nat) (pp : ℚ) :
    ∀ y ∈ ((genLoop tr endDate r v fuel cur idx pp).map
        (fun p => p.date)).head?, y = cur := by
  cases fuel with
  | zero => intro y hy; simp [genLoop] at hy
  | succ fuel =>
    intro y hy
    rw [genLoop_succ_ne tr hne endDate r v fuel cur idx pp] at hy
    by_cases hle : cur ≤ endDate
    · rw [if_pos hle] at hy
      simp at hy
      exact hy.symm
    · rw [if_neg hle] at hy
      simp at hy

/-- Outside `'All Time'`, consecutive generated timestamps differ by exactly
`loopStep tr` days. -/
theorem genLoop_dates_cadence (tr : String) (hne : tr ≠ "All Time")
    (endDate : Int) (r : Nat → ℚ) (v : ℚ) :
    ∀ (fuel : Nat) (cur : Int) (idx : Nat) (pp : ℚ),
      List.Chain' (fun a b => b = a + loopStep tr * dayMs)
        ((genLoop tr endDate r v fuel cur idx pp).map (fun p => p.date)) := by
  intro fuel
  induction fuel with
  | zero => intro cur idx pp; simp [genLoop]
  | succ fuel ih =>
    intro cur idx pp
    rw [genLoop_succ_ne tr hne endDate r v fuel cur idx pp]
    by_cases hle : cur ≤ endDate
    · rw [if_pos hle, List.map_cons]
      refine List.Chain'.cons' (ih _ _ _) ?_
      intro y hy
      exact genLoop_head_date_ne tr hne endDate r v fuel _ _ _ y hy
    · rw [if_neg hle]
      simp

/-- In `'All Time'`, the head of the generated list (if any) sits one JS month
after the loop cursor. -/
theorem genLoop_head_date_allTime (endDate : Int) (r : Nat → ℚ) (v : ℚ)
    (fuel : Nat) (cur : Int) (idx : Nat) (pp : ℚ) :
    ∀ y ∈ ((genLoop "All Time" endDate r v fuel cur idx pp).map
        (fun p => p.date)).head?, y = setMonth0 cur (getMonth0 cur + 1) := by
  cases fuel with
  | zero => intro y hy; simp [genLoop] at hy
  | succ fuel =>
    intro y hy
    rw [genLoop_succ_allTime endDate r v fuel cur idx pp] at hy
    by_cases hle : cur ≤ endDate
    · rw [if_pos hle] at hy
      simp at hy
      exact hy.symm
    · rw [if_neg hle] at hy
      simp at hy

/-- In `'All Time'`, each generated timestamp is the JS one-month advance of
its predecessor. -/
theorem genLoop_dates_cadence_allTime (endDate : Int) (r : Nat → ℚ) (v : ℚ) :
    ∀ (fuel : Nat) (cur : Int) (idx : Nat) (pp : ℚ),
      List.Chain' (fun a b => b = setMonth0 a (getMonth0 a + 1))
        ((genLoop "All Time" endDate r v fuel cur idx pp).map
          (fun p => p.date)) := by
  intro fuel
  induction fuel with
  | zero => intro cur idx pp; simp [genLoop]
  | succ fuel ih =>
    intro cur idx pp
    rw [genLoop_succ_allTime endDate r v fuel cur idx pp]
    by_cases hle : cur ≤ endDate
    · rw [if_pos hle, List.map_cons]
      refine List.Chain'.cons' (ih _ _ _) ?_
      intro y hy
      exact genLoop_head_date_allTime endDate r v fuel _ _ _ y hy
    · rw [if_neg hle]
      simp

theorem setHoursTo_mono (ts a b : Int) (h : a ≤ b) :
    setHoursTo ts a ≤ setHoursTo ts b := by
  simp only [setHoursTo, hourMs, dayMs]
  omega

theorem setHoursTo_le_day_after (ts h : Int) (hh : h ≤ 23) :
    setHoursTo ts h ≤ ts + dayMs := by
  simp only [setHoursTo, hourMs, dayMs]
  omega

theorem setHoursTo_step (ts a : Int) :
    setHoursTo ts (a + 2) = setHoursTo ts a + 2 * hourMs := by
  simp only [setHoursTo]
  ring

theorem gen1D_dates (fromDate : Int) (r : Nat → ℚ) (b v : ℚ) :
    (gen1D fromDate r b v).map (fun p => p.date) =
      (List.range 12).map (fun i => setHoursTo fromDate ((2 * i : Nat) : Int)) := by
  simp [gen1D, List.map_map]

theorem chain'_map_range_of_step (g : Nat → Int) (R : Int → Int → Prop)
    (n : Nat) (h : ∀ i, i + 1 < n → R (g i) (g (i + 1))) :
    List.Chain' R ((List.range n).map g) := by
  rw [List.chain'_map]
  cases n with
  | zero => simp
  | succ m =>
    rw [List.chain'_range_succ]
    intro i hi
    exact h i (by omega)

/-- The 1D timestamps are non-decreasing. -/
theorem gen1D_dates_chain (fromDate : Int) (r : Nat → ℚ) (b v : ℚ) :
    List.Chain' (· ≤ ·) ((gen1D fromDate r b v).map (fun p => p.date)) := by
  rw [gen1D_dates]
  apply chain'_map_range_of_step
  intro i _
  apply setHoursTo_mono
  omega

/-- Consecutive 1D timestamps are exactly two hours apart. -/
theorem gen1D_dates_cadence (fromDate : Int) (r : Nat → ℚ) (b v : ℚ) :
    List.Chain' (fun a b2 => b2 = a + 2 * hourMs)
      ((gen1D fromDate r b v).map (fun p => p.date)) := by
  rw [gen1D_dates]
  apply chain'_map_range_of_step
  intro i _
  have hcast : ((2 * (i + 1) : Nat) : Int) = ((2 * i : Nat) : Int) + 2 := by
    push_cast
    ring
  rw [hcast, setHoursTo_step]

/-- Every 1D timestamp is at most one day after `fromDate`. -/
theorem gen1D_dates_le (fromDate : Int) (r : Nat → ℚ) (b v : ℚ) :
    ∀ p ∈ gen1D fromDate r b v, p.date ≤ fromDate + dayMs := by
  intro p hp
  simp only [gen1D, List.mem_map, List.mem_range] at hp
  rcases hp with ⟨i, hi, rfl⟩
  apply setHoursTo_le_day_after
  omega

theorem gen1D_ne_nil (fromDate : Int) (r : Nat → ℚ) (b v : ℚ) :
    gen1D fromDate r b v ≠ [] := by
  simp [gen1D]

theorem setLastClose_map_date :
    ∀ (l : List HistoricalDataPoint) (c : ℚ),
      (setLastClose l c).map (fun p => p.date) = l.map (fun p => p.date) := by
  intro l
  induction l with
  | nil => intro c; rfl
  | cons p l ih =>
    intro c
    cases l with
    | nil => rfl
    | cons q rest =>
      simp only [setLastClose, List.map_cons]
      rw [ih c]
      simp

theorem setLastClose_ne_nil (l : List HistoricalDataPoint) (c : ℚ)
    (h : l ≠ []) : setLastClose l c ≠ [] := by
  cases l with
  | nil => exact absurd rfl h
  | cons p l => cases l <;> simp [setLastClose]

theorem setLastClose_getLast?_close :
    ∀ (l : List HistoricalDataPoint) (c : ℚ), l ≠ [] →
      ((setLastClose l c).getLast?).map (fun p => p.close) = some c := by
  intro l
  induction l with
  | nil => intro c h; exact absurd rfl h
  | cons p l ih =>
    intro c _
    cases l with
    | nil => rfl
    | cons q rest =>
      simp only [setLastClose]
      cases hsc : setLastClose (q :: rest) c with
      | nil => exact absurd hsc (setLastClose_ne_nil _ _ (by simp))
      | cons s ss =>
        rw [List.getLast?_cons_cons]
        have htail := ih c (by simp)
        rw [hsc] at htail
        exact htail

/-- The generation path of `getHistoricalData`: on a cache miss with an
available anchor quote, the output is the synthetic list with its last point
forced to the anchor price, plus one appended point at `now`, also at the
anchor price. -/
theorem getHistoricalData_gen (env : Env) (st : AppState)
    (symbol tr : String) (now : Int) (q : StockData)
    (hmiss : cacheFresh st.historicalCache (symbol ++ "-" ++ tr) now
      CACHE_EXPIRY_HISTORICAL = false)
    (hq : (getQuote env
        { st with requestCount := trackRequest st.requestCount now }
        symbol now).1 = some q) :
    (getHistoricalData env st symbol tr now).1 =
      setLastClose
        (if tr = "1D" then
          gen1D (historyFromDate tr now) env.rand q.price (q.price * (2 / 100))
        else
          genLoop tr now env.rand (q.price * (2 / 100))
            ((now - historyFromDate tr now).toNat / 86400000 + 2)
            (historyFromDate tr now) 0 (q.price * (95 / 100)))
        q.price ++ [{ date := now, close := q.price }] := by
  unfold getHistoricalData
  rw [if_neg (by simp [hmiss])]
  dsimp only
  rw [hq]

/-- On the generation path, the last output point is at time `now` with the
anchor price. -/
theorem hist_gen_last (env : Env) (st : AppState) (symbol tr : String)
    (now : Int) (q : StockData)
    (hmiss : cacheFresh st.historicalCache (symbol ++ "-" ++ tr) now
      CACHE_EXPIRY_HISTORICAL = false)
    (hq : (getQuote env
        { st with requestCount := trackRequest st.requestCount now }
        symbol now).1 = some q) :
    ((getHistoricalData env st symbol tr now).1.getLast?).map
        (fun p => p.close) = some q.price ∧
    ((getHistoricalData env st symbol tr now).1.getLast?).map
        (fun p => p.date) = some now := by
  rw [getHistoricalData_gen env st symbol tr now q hmiss hq,
    List.getLast?_concat]
  exact ⟨rfl, rfl⟩

/-- On the generation path, outside `'All Time'` the output timestamps are
non-decreasing. -/
theorem hist_gen_dates_sorted (env : Env) (st : AppState) (symbol tr : String)
    (now : Int) (q : StockData) (hne : tr ≠ "All Time")
    (hmiss : cacheFresh st.historicalCache (symbol ++ "-" ++ tr) now
      CACHE_EXPIRY_HISTORICAL = false)
    (hq : (getQuote env
        { st with requestCount := trackRequest st.requestCount now }
        symbol now).1 = some q) :
    List.Chain' (· ≤ ·)
      ((getHistoricalData env st symbol tr now).1.map (fun p => p.date)) := by
  rw [getHistoricalData_gen env st symbol tr now q hmiss hq, List.map_append,
    List.chain'_append, setLastClose_map_date]
  refine ⟨?_, by simp, ?_⟩
  · by_cases h1d : tr = "1D"
    · rw [if_pos h1d]
      exact gen1D_dates_chain _ _ _ _
    · rw [if_neg h1d]
      exact genLoop_dates_chain tr hne now env.rand _ _ _ _ _
  · intro x hx y hy
    have hxy : now = y := by simpa using hy
    rw [← hxy]
    have hxmem : x ∈ (if tr = "1D" then
        gen1D (historyFromDate tr now) env.rand q.price (q.price * (2 / 100))
      else
        genLoop tr now env.rand (q.price * (2 / 100))
          ((now - historyFromDate tr now).toNat / 86400000 + 2)
          (historyFromDate tr now) 0 (q.price * (95 / 100))).map
        (fun p => p.date) :=
      List.mem_of_mem_getLast? hx
    by_cases h1d : tr = "1D"
    · rw [if_pos h1d] at hxmem
      simp only [List.mem_map] at hxmem
      rcases hxmem with ⟨p, hp, rfl⟩
      have hle := gen1D_dates_le (historyFromDate tr now) env.rand q.price
        (q.price * (2 / 100)) p hp
      have hfrom : historyFromDate tr now = now + (-1) * dayMs := by
        rw [h1d]
        simp [historyFromDate, addDays]
      rw [hfrom] at hle
      linarith
    · rw [if_neg h1d] at hxmem
      simp only [List.mem_map] at hxmem
      rcases hxmem with ⟨p, hp, rfl⟩
      exact (genLoop_dates_bounds tr hne now env.rand _ _ _ _ _ p hp).2

/-- Refuting a `Chain'` from one out-of-order adjacent pair. -/
theorem not_chain'_of_get? {R : Int → Int → Prop} (l : List Int) (i : Nat)
    (a b : Int) (ha : l.get? i = some a) (hb : l.get? (i + 1) = some b)
    (hab : ¬ R a b) : ¬ List.Chain' R l := by
  intro hch
  rw [List.chain'_iff_get] at hch
  rcases List.get?_eq_some.mp ha with ⟨hia, hga⟩
  rcases List.get?_eq_some.mp hb with ⟨hib, hgb⟩
  have := hch i (by omega)
  rw [hga, hgb] at this
  exact hab this

/-! ## C1 -/

/-- C1 counterexample: with a live quote available, `"All Time"` produces a
series whose timestamps are not even non-decreasing (its last synthetic point
is stamped one month after `now`, later than the appended final point), and
`"1W"` produces a series whose timestamps are not strictly increasing (its
last synthetic point lands exactly on `now` and ties the appended final
point), so the claimed monotone increase fails. -/
theorem c1_counterexample :
    ¬ List.Chain' (· ≤ ·)
        ((getHistoricalData okEnv st0 "AAPL" "All Time" T0).1.map
          (fun p => p.date)) ∧
    ¬ List.Chain' (· < ·)
        ((getHistoricalData okEnv st0 "AAPL" "1W" T0).1.map
          (fun p => p.date)) := by
  constructor
  · exact not_chain'_of_get? _ 60 1702592000000 1700000000000
      (by decide) (by decide) (by decide)
  · exact not_chain'_of_get? _ 7 1700000000000 1700000000000
      (by decide) (by decide) (by decide)

/-- C1 (amended): on the generation path (cache miss) with the anchor quote
available, the series has non-decreasing timestamps for every time range
label except `"All Time"`, and for every label (including `"All Time"`) its
last element's price equals the anchor quote's current price. -/
theorem c1_series_invariant (env : Env) (st : AppState) (symbol tr : String)
    (now : Int) (q : StockData)
    (hmiss : cacheFresh st.historicalCache (symbol ++ "-" ++ tr) now
      CACHE_EXPIRY_HISTORICAL = false)
    (hq : (getQuote env
        { st with requestCount := trackRequest st.requestCount now }
        symbol now).1 = some q) :
    (tr ≠ "All Time" →
      List.Chain' (· ≤ ·)
        ((getHistoricalData env st symbol tr now).1.map (fun p => p.date))) ∧
    ((getHistoricalData env st symbol tr now).1.getLast?).map
        (fun p => p.close) = some q.price :=
  ⟨fun hne => hist_gen_dates_sorted env st symbol tr now q hne hmiss hq,
   (hist_gen_last env st symbol tr now q hmiss hq).1⟩

/-- Witness for the amended C1 at the `"1W"` range in a fresh state. -/
theorem c1_series_invariant_witness :
    (("1W" : String) ≠ "All Time" →
      List.Chain' (· ≤ ·)
        ((getHistoricalData okEnv st0 "AAPL" "1W" T0).1.map
          (fun p => p.date))) ∧
    ((getHistoricalData okEnv st0 "AAPL" "1W" T0).1.getLast?).map
        (fun p => p.close) = some qT0.price :=
  c1_series_invariant okEnv st0 "AAPL" "1W" T0 qT0 (by decide) (by decide)

/-! ## C2 -/

/-- C2: on the generation path with the anchor quote available,
`getHistoricalData(symbol, "1D")` returns a non-empty series with
non-decreasing timestamps whose final synthesized point is forced to the
anchor price and whose appended last point sits at the current timestamp,
also at the anchor price. -/
theorem c2_history_1D (env : Env) (st : AppState) (symbol : String)
    (now : Int) (q : StockData)
    (hmiss : cacheFresh st.historicalCache (symbol ++ "-" ++ "1D") now
      CACHE_EXPIRY_HISTORICAL = false)
    (hq : (getQuote env
        { st with requestCount := trackRequest st.requestCount now }
        symbol now).1 = some q) :
    (getHistoricalData env st symbol "1D" now).1 ≠ [] ∧
    List.Chain' (· ≤ ·)
      ((getHistoricalData env st symbol "1D" now).1.map (fun p => p.date)) ∧
    ((getHistoricalData env st symbol "1D" now).1.getLast?).map
        (fun p => p.close) = some q.price ∧
    ((getHistoricalData env st symbol "1D" now).1.getLast?).map
        (fun p => p.date) = some now ∧
    (((getHistoricalData env st symbol "1D" now).1.dropLast).getLast?).map
        (fun p => p.close) = some q.price := by
  refine ⟨?_, ?_, ?_, ?_, ?_⟩
  · rw [getHistoricalData_gen env st symbol "1D" now q hmiss hq]
    simp
  · exact hist_gen_dates_sorted env st symbol "1D" now q (by decide) hmiss hq
  · exact (hist_gen_last env st symbol "1D" now q hmiss hq).1
  · exact (hist_gen_last env st symbol "1D" now q hmiss hq).2
  · rw [getHistoricalData_gen env st symbol "1D" now q hmiss hq,
      List.dropLast_concat, if_pos rfl]
    exact setLastClose_getLast?_close _ q.price (gen1D_ne_nil _ _ _ _)

/-- Witness for C2 in a fresh state. -/
theorem c2_history_1D_witness :
    (getHistoricalData okEnv st0 "AAPL" "1D" T0).1 ≠ [] ∧
    List.Chain' (· ≤ ·)
      ((getHistoricalData okEnv st0 "AAPL" "1D" T0).1.map (fun p => p.date)) ∧
    ((getHistoricalData okEnv st0 "AAPL" "1D" T0).1.getLast?).map
        (fun p => p.close) = some qT0.price ∧
    ((getHistoricalData okEnv st0 "AAPL" "1D" T0).1.getLast?).map
        (fun p => p.date) = some T0 ∧
    (((getHistoricalData okEnv st0 "AAPL" "1D" T0).1.dropLast).getLast?).map
        (fun p => p.close) = some qT0.price :=
  c2_history_1D okEnv st0 "AAPL" T0 qT0 (by decide) (by decide)

/-! ## C5 -/

/-- C5 counterexample: with a live quote, the `"1D"` synthetic points are two
hours apart (not hourly), and the `"3M"` points are three days apart (not
daily), refuting the claimed cadence. -/
theorem c5_counterexample :
    ¬ List.Chain' (fun a b => b = a + hourMs)
        (((getHistoricalData okEnv st0 "AAPL" "1D" T0).1.dropLast).map
          (fun p => p.date)) ∧
    ¬ List.Chain' (fun a b => b = a + dayMs)
        (((getHistoricalData okEnv st0 "AAPL" "3M" T0).1.dropLast).map
          (fun p => p.date)) := by
  constructor
  · exact not_chain'_of_get? _ 0 1699834400000 1699841600000
      (by decide) (by decide) (by decide)
  · exact not_chain'_of_get? _ 0 1692051200000 1692310400000
      (by decide) (by decide) (by decide)

/-- C5 (amended): the lookback-window mapping is as claimed (`1D`→1 day,
`1W`→7 days, `1M`→1 month, `3M`→3 months, `1Y`→1 year, `All Time`→5 years,
via the JS `setDate`/`setMonth`/`setFullYear` shifts), but the generation
cadence is: every *two hours* for `1D`, daily for `1W`/`1M`, every *three
days* for `3M`, weekly for `1Y`, and monthly for `All Time`. -/
theorem c5_window_and_cadence (env : Env) (st : AppState) (symbol tr : String)
    (now : Int) (q : StockData)
    (hmiss : cacheFresh st.historicalCache (symbol ++ "-" ++ tr) now
      CACHE_EXPIRY_HISTORICAL = false)
    (hq : (getQuote env
        { st with requestCount := trackRequest st.requestCount now }
        symbol now).1 = some q) :
    historyFromDate "1D" now = addDays now (-1) ∧
    historyFromDate "1W" now = addDays now (-7) ∧
    historyFromDate "1M" now = setMonth0 now (getMonth0 now - 1) ∧
    historyFromDate "3M" now = setMonth0 now (getMonth0 now - 3) ∧
    historyFromDate "1Y" now = setFullYearTo now (getFullYear now - 1) ∧
    historyFromDate "All Time" now = setFullYearTo now (getFullYear now - 5) ∧
    (tr = "1D" →
      List.Chain' (fun a b => b = a + 2 * hourMs)
        (((getHistoricalData env st symbol tr now).1.dropLast).map
          (fun p => p.date))) ∧
    (tr = "1W" ∨ tr = "1M" →
      List.Chain' (fun a b => b = a + dayMs)
        (((getHistoricalData env st symbol tr now).1.dropLast).map
          (fun p => p.date))) ∧
    (tr = "3M" →
      List.Chain' (fun a b => b = a + 3 * dayMs)
        (((getHistoricalData env st symbol tr now).1.dropLast).map
          (fun p => p.date))) ∧
    (tr = "1Y" →
      List.Chain' (fun a b => b = a + 7 * dayMs)
        (((getHistoricalData env st symbol tr now).1.dropLast).map
          (fun p => p.date))) ∧
    (tr = "All Time" →
      List.Chain' (fun a b => b = setMonth0 a (getMonth0 a + 1))
        (((getHistoricalData env st symbol tr now).1.dropLast).map
          (fun p => p.date))) := by
  refine ⟨by simp [historyFromDate], by simp [historyFromDate],
    by simp [historyFromDate], by simp [historyFromDate],
    by simp [historyFromDate], by simp [historyFromDate],
    ?_, ?_, ?_, ?_, ?_⟩
  · intro htr
    subst htr
    rw [getHistoricalData_gen env st symbol "1D" now q hmiss hq,
      List.dropLast_concat, if_pos rfl, setLastClose_map_date]
    exact gen1D_dates_cadence _ _ _ _
  · intro htr
    have hne : tr ≠ "All Time" := by rcases htr with h | h <;> simp [h]
    have h1d : tr ≠ "1D" := by rcases htr with h | h <;> simp [h]
    have hstep : loopStep tr = 1 := by
      rcases htr with h | h <;> simp [loopStep, h]
    rw [getHistoricalData_gen env st symbol tr now q hmiss hq,
      List.dropLast_concat, if_neg h1d, setLastClose_map_date]
    have hc := genLoop_dates_cadence tr hne now env.rand (q.price * (2 / 100))
      ((now - historyFromDate tr now).toNat / 86400000 + 2)
      (historyFromDate tr now) 0 (q.price * (95 / 100))
    simp only [hstep, one_mul] at hc
    exact hc
  · intro htr
    subst htr
    rw [getHistoricalData_gen env st symbol "3M" now q hmiss hq,
      List.dropLast_concat, if_neg (by decide), setLastClose_map_date]
    have hc := genLoop_dates_cadence "3M" (by decide) now env.rand
      (q.price * (2 / 100))
      ((now - historyFromDate "3M" now).toNat / 86400000 + 2)
      (historyFromDate "3M" now) 0 (q.price * (95 / 100))
    have hstep : loopStep "3M" = 3 := by simp [loopStep]
    simp only [hstep] at hc
    exact hc
  · intro htr
    subst htr
    rw [getHistoricalData_gen env st symbol "1Y" now q hmiss hq,
      List.dropLast_concat, if_neg (by decide), setLastClose_map_date]
    have hc := genLoop_dates_cadence "1Y" (by decide) now env.rand
      (q.price * (2 / 100))
      ((now - historyFromDate "1Y" now).toNat / 86400000 + 2)
      (historyFromDate "1Y" now) 0 (q.price * (95 / 100))
    have hstep : loopStep "1Y" = 7 := by simp [loopStep]
    simp only [hstep] at hc
    exact hc
  · intro htr
    subst htr
    rw [getHistoricalData_gen env st symbol "All Time" now q hmiss hq,
      List.dropLast_concat, if_neg (by decide), setLastClose_map_date]
    exact genLoop_dates_cadence_allTime now env.rand (q.price * (2 / 100))
      ((now - historyFromDate "All Time" now).toNat / 86400000 + 2)
      (historyFromDate "All Time" now) 0 (q.price * (95 / 100))

/-- Witness for the amended C5 at the `"1D"` range in a fresh state. -/
theorem c5_window_and_cadence_witness :
    historyFromDate "1D" T0 = addDays T0 (-1) ∧
    historyFromDate "1W" T0 = addDays T0 (-7) ∧
    historyFromDate "1M" T0 = setMonth0 T0 (getMonth0 T0 - 1) ∧
    historyFromDate "3M" T0 = setMonth0 T0 (getMonth0 T0 - 3) ∧
    historyFromDate "1Y" T0 = setFullYearTo T0 (getFullYear T0 - 1) ∧
    historyFromDate "All Time" T0 = setFullYearTo T0 (getFullYear T0 - 5) ∧
    (("1D" : String) = "1D" →
      List.Chain' (fun a b => b = a + 2 * hourMs)
        (((getHistoricalData okEnv st0 "AAPL" "1D" T0).1.dropLast).map
          (fun p => p.date))) ∧
    (("1D" : String) = "1W" ∨ ("1D" : String) = "1M" →
      List.Chain' (fun a b => b = a + dayMs)
        (((getHistoricalData okEnv st0 "AAPL" "1D" T0).1.dropLast).map
          (fun p => p.date))) ∧
    (("1D" : String) = "3M" →
      List.Chain' (fun a b => b = a + 3 * dayMs)
        (((getHistoricalData okEnv st0 "AAPL" "1D" T0).1.dropLast).map
          (fun p => p.date))) ∧
    (("1D" : String) = "1Y" →
      List.Chain' (fun a b => b = a + 7 * dayMs)
        (((getHistoricalData okEnv st0 "AAPL" "1D" T0).1.dropLast).map
          (fun p => p.date))) ∧
    (("1D" : String) = "All Time" →
      List.Chain' (fun a b => b = setMonth0 a (getMonth0 a + 1))
        (((getHistoricalData okEnv st0 "AAPL" "1D" T0).1.dropLast).map
          (fun p => p.date))) :=
  c5_window_and_cadence okEnv st0 "AAPL" "1D" T0 qT0 (by decide) (by decide)

end Tickertock
